import Mathlib

/-!
Shallow embedding of the domain rules of the forum backend: the Post voting
methods, the Comment reporting/moderation methods, and the User
membership methods, together with the controller-level wrappers that
guard them.  Each definition mirrors one JavaScript function of the
repository; theorems establish the data-integrity properties the design
documents state about them.
-/

namespace Forum

/-- The vote types accepted by the API; the vote controller validates
that the voteType of the request is one of the strings up or down before any
model method runs, so the model level only ever sees these two values. -/
inductive VoteType where
  | up
  | down
deriving DecidableEq, Repr

/-- One entry of the voter list of a post: `(userId, voteType)`.  The
`votedAt` timestamp of the schema is dropped: no claim depends on it. -/
structure Voter where
  userId : Nat
  voteType : VoteType
deriving DecidableEq, Repr

/-- Post visibility enum (`public` | `private` in the schema; `private`
is a Lean keyword, hence the V suffix). -/
inductive Visibility where
  | publicV
  | privateV
deriving DecidableEq, Repr

/-- The Post document, restricted to the fields the voting logic and its
controller touch: author reference, visibility, the cached vote counts
and the embedded voter list. -/
structure Post where
  author : Nat
  visibility : Visibility
  upVote : Nat
  downVote : Nat
  voters : List Voter
deriving DecidableEq, Repr

lemma beq_up_up : (VoteType.up == VoteType.up) = true := rfl

lemma beq_up_down : (VoteType.up == VoteType.down) = false := rfl

lemma beq_down_up : (VoteType.down == VoteType.up) = false := rfl

lemma beq_down_down : (VoteType.down == VoteType.down) = true := rfl

/-- Number of voter-list entries with voteType up. -/
def countUp (vs : List Voter) : Nat :=
  (vs.filter (fun voter => voter.voteType == VoteType.up)).length

/-- Number of voter-list entries with voteType down. -/
def countDown (vs : List Voter) : Nat :=
  (vs.filter (fun voter => voter.voteType == VoteType.down)).length

/-- Embedding of `postSchema.methods.vote`: remove any existing vote by
this user, count the up and down entries of the remaining list, push the
new `(userId, voteType)` entry, and set the cached counts from those
counts plus one on the side voted. -/
def Post.vote (p : Post) (userId : Nat) (voteType : VoteType) : Post :=
  let voters := p.voters.filter (fun voter => !(voter.userId == userId))
  let currentUpVotes := (voters.filter (fun voter => voter.voteType == VoteType.up)).length
  let currentDownVotes := (voters.filter (fun voter => voter.voteType == VoteType.down)).length
  let voters := voters ++ [{ userId := userId, voteType := voteType }]
  if voteType == VoteType.up then
    { p with voters := voters, upVote := currentUpVotes + 1, downVote := currentDownVotes }
  else
    { p with voters := voters, upVote := currentUpVotes, downVote := currentDownVotes + 1 }

/-- Embedding of `postSchema.methods.removeVote`: drop the entry of the user
and recompute both cached counts from the remaining list. -/
def Post.removeVote (p : Post) (userId : Nat) : Post :=
  let voters := p.voters.filter (fun voter => !(voter.userId == userId))
  { p with voters := voters,
           upVote := (voters.filter (fun voter => voter.voteType == VoteType.up)).length,
           downVote := (voters.filter (fun voter => voter.voteType == VoteType.down)).length }

/-- Embedding of `postSchema.methods.getUserVote`: the recorded vote
type of the user, or none when the user has no entry. -/
def Post.getUserVote (p : Post) (userId : Nat) : Option VoteType :=
  (p.voters.find? (fun voter => voter.userId == userId)).map Voter.voteType

/-- The cached counts agree with the voter list. -/
def voteCountsOk (p : Post) : Prop :=
  p.upVote = countUp p.voters ∧ p.downVote = countDown p.voters

instance (p : Post) : Decidable (voteCountsOk p) :=
  inferInstanceAs (Decidable (_ ∧ _))

/-- No user id occurs twice in the voter list. -/
def distinctVoters (p : Post) : Prop :=
  (p.voters.map Voter.userId).Nodup

instance (p : Post) : Decidable (distinctVoters p) :=
  inferInstanceAs (Decidable (List.Nodup _))

/-- The vote-count invariant of the Post model: cached counts are the
counts over the voter list, and each user appears at most once. -/
def PostInv (p : Post) : Prop :=
  voteCountsOk p ∧ distinctVoters p

instance (p : Post) : Decidable (PostInv p) :=
  inferInstanceAs (Decidable (_ ∧ _))

/-- The full conclusion of the voting guarantee: correct cached counts,
no duplicate voter, and the two counts summing to the length of the
(duplicate-free) voter list. -/
def postStateOk (p : Post) : Prop :=
  p.upVote = countUp p.voters ∧ p.downVote = countDown p.voters ∧
  (p.voters.map Voter.userId).Nodup ∧
  p.upVote + p.downVote = p.voters.length

/-- One call against the Post voting methods. -/
inductive VoteOp where
  | vote (userId : Nat) (voteType : VoteType)
  | removeVote (userId : Nat)
deriving DecidableEq, Repr

/-- Run one voting method call. -/
def applyVoteOp (p : Post) (op : VoteOp) : Post :=
  match op with
  | .vote u t => p.vote u t
  | .removeVote u => p.removeVote u

/-- Run a sequence of voting method calls, left to right. -/
def applyVoteOps (p : Post) (ops : List VoteOp) : Post :=
  ops.foldl applyVoteOp p

lemma countUp_add_countDown (vs : List Voter) :
    countUp vs + countDown vs = vs.length := by
  induction vs with
  | nil => rfl
  | cons v vs ih =>
      cases h : v.voteType <;>
        simp [countUp, countDown, List.filter_cons, h,
              beq_up_up, beq_up_down, beq_down_up, beq_down_down] at ih ⊢ <;>
        omega

lemma vote_voteCountsOk (p : Post) (u : Nat) (t : VoteType) :
    voteCountsOk (p.vote u t) := by
  cases t <;>
    simp [Post.vote, voteCountsOk, countUp, countDown, List.filter_append,
          List.filter_cons, beq_up_up, beq_up_down, beq_down_up, beq_down_down]

lemma removeVote_voteCountsOk (p : Post) (u : Nat) :
    voteCountsOk (p.removeVote u) := by
  simp [Post.removeVote, voteCountsOk, countUp, countDown]

lemma mem_filter_userId_ne {u : Nat} {vs : List Voter} {v : Voter}
    (h : v ∈ vs.filter (fun voter => !(voter.userId == u))) : v.userId ≠ u := by
  have := (List.mem_filter.mp h).2
  simpa using this

lemma filtered_voters_nodup (p : Post) (u : Nat) (h : distinctVoters p) :
    ((p.voters.filter (fun voter => !(voter.userId == u))).map Voter.userId).Nodup := by
  have hsub : List.Sublist
      ((p.voters.filter (fun voter => !(voter.userId == u))).map Voter.userId)
      (p.voters.map Voter.userId) :=
    List.Sublist.map _ (List.filter_sublist _)
  exact List.Nodup.sublist hsub h

lemma vote_distinctVoters (p : Post) (u : Nat) (t : VoteType)
    (h : distinctVoters p) : distinctVoters (p.vote u t) := by
  have hnodup := filtered_voters_nodup p u h
  have hnotmem : u ∉ (p.voters.filter (fun voter => !(voter.userId == u))).map Voter.userId := by
    intro hmem
    obtain ⟨v, hv, hvu⟩ := List.mem_map.mp hmem
    exact mem_filter_userId_ne hv hvu
  cases t <;>
    simp [Post.vote, distinctVoters, List.nodup_append, hnodup, hnotmem]

lemma removeVote_distinctVoters (p : Post) (u : Nat)
    (h : distinctVoters p) : distinctVoters (p.removeVote u) :=
  filtered_voters_nodup p u h

lemma applyVoteOp_inv (p : Post) (op : VoteOp) (h : PostInv p) :
    PostInv (applyVoteOp p op) := by
  cases op with
  | vote u t => exact ⟨vote_voteCountsOk p u t, vote_distinctVoters p u t h.2⟩
  | removeVote u => exact ⟨removeVote_voteCountsOk p u, removeVote_distinctVoters p u h.2⟩

lemma applyVoteOps_inv (ops : List VoteOp) (p : Post) (h : PostInv p) :
    PostInv (applyVoteOps p ops) := by
  induction ops generalizing p with
  | nil => exact h
  | cons op ops ih => exact ih (applyVoteOp p op) (applyVoteOp_inv p op h)

lemma postInv_postStateOk (p : Post) (h : PostInv p) : postStateOk p := by
  obtain ⟨⟨hup, hdown⟩, hnodup⟩ := h
  refine ⟨hup, hdown, hnodup, ?_⟩
  rw [hup, hdown]
  exact countUp_add_countDown _

/-- C1: starting from a post whose cached counts match its voter list and
whose voters are distinct, any sequence of vote and removeVote calls
leaves a post in which upVote counts the voteType-up entries, downVote
counts the voteType-down entries, the voter list has no duplicate user
id, and upVote + downVote is the number of (necessarily distinct)
voters. -/
theorem vote_sequence_invariant (p : Post) (ops : List VoteOp) (h : PostInv p) :
    postStateOk (applyVoteOps p ops) :=
  postInv_postStateOk _ (applyVoteOps_inv ops p h)

/-- A fresh public post with no votes, as created by the post controller. -/
def freshPost : Post :=
  { author := 1, visibility := Visibility.publicV, upVote := 0, downVote := 0, voters := [] }

/-- A sample voting history: an upvote, a downvote by another user, a
vote switch, and a retraction. -/
def sampleVoteOps : List VoteOp :=
  [VoteOp.vote 5 VoteType.up, VoteOp.vote 6 VoteType.down,
   VoteOp.vote 5 VoteType.down, VoteOp.removeVote 6]

/-- Concrete run of the C1 theorem on a fresh post and a four-call
history. -/
theorem vote_sequence_invariant_witness :
    PostInv freshPost ∧ postStateOk (applyVoteOps freshPost sampleVoteOps) :=
  ⟨by decide, vote_sequence_invariant freshPost sampleVoteOps (by decide)⟩

/-- The vote-submission branch of the `votePost` controller, after
validation and authorization: when the existing vote of the user equals the
submitted type the controller calls removeVote (a retraction), otherwise
it calls vote. -/
def submitVote (p : Post) (userId : Nat) (voteType : VoteType) : Post :=
  if p.getUserVote userId = some voteType then
    p.removeVote userId
  else
    p.vote userId voteType

/-- The authorization failure of the `votePost` controller: a 403 when a
non-author votes on a private post. -/
inductive VoteError where
  | privatePost
deriving DecidableEq, Repr

/-- Embedding of the `votePost` controller on a found post with a valid
vote type: reject a vote by a non-author on a private post before touching
the document, otherwise run the retract-or-vote branch. -/
def votePost (p : Post) (reqUserId : Nat) (voteType : VoteType) : Except VoteError Post :=
  if p.visibility == Visibility.privateV && !(p.author == reqUserId) then
    Except.error VoteError.privatePost
  else
    Except.ok (submitVote p reqUserId voteType)

lemma find?_append_of_none {α : Type} (l₁ l₂ : List α) (p : α → Bool)
    (h : l₁.find? p = none) : (l₁ ++ l₂).find? p = l₂.find? p := by
  induction l₁ with
  | nil => rfl
  | cons a l ih =>
      cases hpa : p a
      · simp only [List.cons_append, List.find?, hpa] at h ⊢
        exact ih h
      · simp only [List.find?, hpa] at h
        exact absurd h (by simp)

/-- A post holding one down-vote by user 2, with cached counts agreeing
with its voter list. -/
def switchedVotePost : Post :=
  { author := 1, visibility := Visibility.publicV, upVote := 0, downVote := 1,
    voters := [{ userId := 2, voteType := VoteType.down }] }

/-- C7 counterexample: when the user already holds a vote of the other
type, submitting the same vote type twice (a vote switch followed by a
retraction) does not restore the pre-vote counts: the down-vote of user 2 is
lost, so downVote ends at 0 where it started at 1. -/
theorem double_vote_not_roundtrip_on_switch :
    ¬ ((submitVote (submitVote switchedVotePost 2 VoteType.up) 2 VoteType.up).upVote
          = switchedVotePost.upVote ∧
       (submitVote (submitVote switchedVotePost 2 VoteType.up) 2 VoteType.up).downVote
          = switchedVotePost.downVote ∧
       (submitVote (submitVote switchedVotePost 2 VoteType.up) 2 VoteType.up).getUserVote 2
          = none) := by
  decide

/-- C7 amended: on a post satisfying the vote-count invariant in which
the user has no recorded vote, submitting the same vote type twice in
succession (vote, then retraction through removeVote) returns the post
to exactly its pre-vote upVote and downVote counts, and the user no
longer appears in the voter list. -/
theorem double_vote_roundtrip (p : Post) (u : Nat) (t : VoteType)
    (hinv : PostInv p) (hnone : p.getUserVote u = none) :
    (submitVote (submitVote p u t) u t).upVote = p.upVote ∧
    (submitVote (submitVote p u t) u t).downVote = p.downVote ∧
    (submitVote (submitVote p u t) u t).getUserVote u = none := by
  obtain ⟨⟨hup, hdown⟩, _⟩ := hinv
  have hfind : p.voters.find? (fun voter => voter.userId == u) = none := by
    simpa [Post.getUserVote] using hnone
  have hall : ∀ v ∈ p.voters, (v.userId == u) = false := by
    intro v hv
    have := List.find?_eq_none.mp hfind v hv
    simpa using this
  have hfilter : p.voters.filter (fun voter => !(voter.userId == u)) = p.voters := by
    apply List.filter_eq_self.mpr
    intro v hv
    simp [hall v hv]
  have h1 : submitVote p u t = p.vote u t := by
    simp [submitVote, hnone]
  have hvoters : (p.vote u t).voters = p.voters ++ [{ userId := u, voteType := t }] := by
    cases t <;> simp [Post.vote, hfilter]
  have hfind2 : ((p.vote u t).voters.find? (fun voter => voter.userId == u))
      = some { userId := u, voteType := t } := by
    rw [hvoters, find?_append_of_none _ _ _ hfind]
    simp [List.find?]
  have h2 : submitVote (p.vote u t) u t = (p.vote u t).removeVote u := by
    simp [submitVote, Post.getUserVote, hfind2]
  have hfilter2 : (p.vote u t).voters.filter (fun voter => !(voter.userId == u)) = p.voters := by
    rw [hvoters, List.filter_append, hfilter]
    simp [List.filter]
  rw [h1, h2]
  refine ⟨?_, ?_, ?_⟩ <;>
    simp [Post.removeVote, Post.getUserVote, hfilter2, hup, hdown, countUp, countDown, hfind]

/-- Concrete run of the amended C7 theorem: user 3 downvotes the sample
post twice; counts return to their initial values and user 3 leaves the
voter list. -/
theorem double_vote_roundtrip_witness :
    PostInv switchedVotePost ∧ switchedVotePost.getUserVote 3 = none ∧
    ((submitVote (submitVote switchedVotePost 3 VoteType.down) 3 VoteType.down).upVote
        = switchedVotePost.upVote ∧
     (submitVote (submitVote switchedVotePost 3 VoteType.down) 3 VoteType.down).downVote
        = switchedVotePost.downVote ∧
     (submitVote (submitVote switchedVotePost 3 VoteType.down) 3 VoteType.down).getUserVote 3
        = none) :=
  ⟨by decide, by decide,
   double_vote_roundtrip switchedVotePost 3 VoteType.down (by decide) (by decide)⟩

/-- A private post authored by user 1. -/
def privatePostDoc : Post :=
  { author := 1, visibility := Visibility.privateV, upVote := 0, downVote := 0, voters := [] }

/-- C8: a vote on a private post by an authenticated user other than the
author is rejected with the authorization error; the controller returns
before calling any mutating method, so the voter list and both cached
counts are untouched. -/
theorem private_post_vote_rejected (p : Post) (u : Nat) (t : VoteType)
    (hvis : p.visibility = Visibility.privateV) (hauth : p.author ≠ u) :
    votePost p u t = Except.error VoteError.privatePost := by
  simp [votePost, hvis, hauth]

/-- Concrete run of the C8 theorem: user 2 upvoting the private
post of user 1 is rejected. -/
theorem private_post_vote_rejected_witness :
    privatePostDoc.visibility = Visibility.privateV ∧ privatePostDoc.author ≠ 2 ∧
    votePost privatePostDoc 2 VoteType.up = Except.error VoteError.privatePost :=
  ⟨rfl, by decide, private_post_vote_rejected privatePostDoc 2 VoteType.up rfl (by decide)⟩

/-- Status of one report inside the report list of a comment
(`pending` | `reviewed` | `resolved` | `dismissed` in the schema). -/
inductive ReportStatus where
  | pending
  | reviewed
  | resolved
  | dismissed
deriving DecidableEq, Repr

/-- The admin-assigned review state of a comment
(`approved` | `pending` | `flagged` | `removed` in the schema). -/
inductive ModerationStatus where
  | approved
  | pending
  | flagged
  | removed
deriving DecidableEq, Repr

/-- One entry of the report list of a comment: `(reportedBy, feedback,
status)`.  The `reportedAt` timestamp of the schema is dropped: no claim
depends on it. -/
structure Report where
  reportedBy : Nat
  feedback : String
  status : ReportStatus
deriving DecidableEq, Repr

/-- The Comment document, restricted to the fields that reporting,
moderation and soft deletion touch. -/
structure Comment where
  post : Nat
  author : Nat
  content : String
  isActive : Bool
  reports : List Report
  isReported : Bool
  moderationStatus : ModerationStatus
deriving DecidableEq, Repr

/-- Embedding of the commentSchema pre-save middleware: every
document-level save recomputes isReported as reports.length > 0. -/
def commentPreSave (c : Comment) : Comment :=
  { c with isReported := decide (c.reports.length > 0) }

/-- A comment as the createComment controller persists it: explicit
isActive true, schema defaults for the report fields and moderation
status, then the pre-save hook. -/
def createComment (post author : Nat) (content : String) : Comment :=
  commentPreSave
    { post := post, author := author, content := content, isActive := true,
      reports := [], isReported := false, moderationStatus := ModerationStatus.approved }

/-- Embedding of `commentSchema.methods.addReport`: fail when the user
already has an entry in the report list, otherwise push a pending entry,
set isReported and save (which reruns the pre-save hook). -/
def Comment.addReport (c : Comment) (userId : Nat) (feedback : String) :
    Except String Comment :=
  match c.reports.find? (fun report => report.reportedBy == userId) with
  | some _ => Except.error "You have already reported this comment"
  | none =>
      Except.ok (commentPreSave
        { c with
          reports := c.reports ++
            [{ reportedBy := userId, feedback := feedback, status := ReportStatus.pending }],
          isReported := true })

/-- Embedding of `commentSchema.methods.updateReportStatus`: the
subdocument id is modelled as the position of the report in the list; a
missing id is the Report-not-found error, otherwise the status of that
one report is replaced and the comment saved. -/
def Comment.updateReportStatus (c : Comment) (reportId : Nat) (status : ReportStatus) :
    Except String Comment :=
  if h : reportId < c.reports.length then
    Except.ok (commentPreSave
      { c with
        reports := c.reports.set reportId
            ({ c.reports.get ⟨reportId, h⟩ with status := status }) })
  else
    Except.error "Report not found"

/-- Embedding of `commentSchema.methods.moderate`: set the moderation
status, force isActive to false when the status is removed, and save.
The moderator id is recorded by the caller only, never used here. -/
def Comment.moderate (c : Comment) (status : ModerationStatus) (_moderatorId : Nat) : Comment :=
  let c := { c with moderationStatus := status }
  let c := if status = ModerationStatus.removed then { c with isActive := false } else c
  commentPreSave c

/-- The soft delete of the deleteComment controller: flip isActive and
save. -/
def deleteCommentSoft (c : Comment) : Comment :=
  commentPreSave { c with isActive := false }

/-- The three admin moderation actions. -/
inductive AdminAction where
  | approve
  | flag
  | remove
deriving DecidableEq, Repr

/-- The fixed action-to-moderation-status table of the admin
controller. -/
def moderationStatusFor : AdminAction → ModerationStatus
  | AdminAction.approve => ModerationStatus.approved
  | AdminAction.flag => ModerationStatus.flagged
  | AdminAction.remove => ModerationStatus.removed

/-- The fixed action-to-report-status table of the admin controller. -/
def reportStatusFor : AdminAction → ReportStatus
  | AdminAction.approve => ReportStatus.dismissed
  | AdminAction.flag => ReportStatus.reviewed
  | AdminAction.remove => ReportStatus.resolved

/-- Embedding of the updateMany document update of
bulkActionReportedComments, as it acts on one matched comment: set
moderationStatus from the action table and set the status of every
reports entry (the all-positions operator).  Being a direct database
update it goes through neither the moderate method nor the pre-save
hook, so no other field changes. -/
def bulkActionUpdate (action : AdminAction) (c : Comment) : Comment :=
  { c with
    moderationStatus := moderationStatusFor action,
    reports := c.reports.map (fun report => { report with status := reportStatusFor action }) }

/-- The all-pending branch of handleReportedComment: every pending
report takes the table status, then the comment is saved. -/
def resolveAllPending (c : Comment) (status : ReportStatus) : Comment :=
  commentPreSave
    { c with reports := c.reports.map (fun report =>
        if report.status = ReportStatus.pending then { report with status := status }
        else report) }

/-- The running example of the spec: a comment with pending reports from
users 1 and 2. -/
def reportedComment : Comment :=
  { post := 10, author := 3, content := "First!", isActive := true,
    reports :=
      [{ reportedBy := 1, feedback := "Spam or promotional content",
         status := ReportStatus.pending },
       { reportedBy := 2, feedback := "Harassment or bullying",
         status := ReportStatus.pending }],
    isReported := true, moderationStatus := ModerationStatus.approved }

/-- C2: on the example comment of the spec, the bulk remove action sets
moderationStatus to removed and both pending reports to resolved, but it
leaves isActive at true: the updateMany update never touches isActive,
so the deactivation the moderate method would perform is skipped. -/
theorem bulk_remove_keeps_comment_active :
    (bulkActionUpdate AdminAction.remove reportedComment).moderationStatus
        = ModerationStatus.removed ∧
    (bulkActionUpdate AdminAction.remove reportedComment).reports.map Report.status
        = [ReportStatus.resolved, ReportStatus.resolved] ∧
    (bulkActionUpdate AdminAction.remove reportedComment).isActive = true := by
  decide

/-- C4: moderate always installs the requested moderation status, and
it flips isActive to false exactly when that status is removed,
preserving the flag otherwise. -/
theorem moderate_sets_status (c : Comment) (st : ModerationStatus) (m : Nat) :
    (c.moderate st m).moderationStatus = st ∧
    (c.moderate st m).isActive
      = (if st = ModerationStatus.removed then false else c.isActive) := by
  cases st <;> simp [Comment.moderate, commentPreSave]

/-- C3: when addReport succeeds it has appended exactly one pending
entry for the reporting user and set isReported; a second addReport by
the same user on the result fails with the duplicate-report error (and,
returning an error, produces no changed comment at all). -/
theorem addReport_contract (c c₂ : Comment) (u : Nat) (fb fb₂ : String)
    (h : c.addReport u fb = Except.ok c₂) :
    c₂.reports = c.reports ++
      [{ reportedBy := u, feedback := fb, status := ReportStatus.pending }] ∧
    c₂.isReported = true ∧
    c₂.addReport u fb₂ = Except.error "You have already reported this comment" := by
  unfold Comment.addReport at h
  cases hfind : c.reports.find? (fun report => report.reportedBy == u) with
  | some r => rw [hfind] at h; cases h
  | none =>
      rw [hfind] at h
      have hc : c₂ = commentPreSave
          { c with
            reports := c.reports ++
              [{ reportedBy := u, feedback := fb, status := ReportStatus.pending }],
            isReported := true } := by
        cases h
        rfl
      have hreports : c₂.reports = c.reports ++
          [{ reportedBy := u, feedback := fb, status := ReportStatus.pending }] := by
        rw [hc]
        rfl
      refine ⟨hreports, ?_, ?_⟩
      · rw [hc]
        simp [commentPreSave]
      · cases hfind2 : c₂.reports.find? (fun report => report.reportedBy == u) with
        | some r => simp [Comment.addReport, hfind2]
        | none =>
            exfalso
            have hmem : (⟨u, fb, ReportStatus.pending⟩ : Report) ∈ c₂.reports := by
              rw [hreports]
              simp
            have := List.find?_eq_none.mp hfind2 _ hmem
            simp at this

/-- The comment of the example of the spec before any report. -/
def sampleComment : Comment := createComment 10 3 "First!"

/-- sampleComment after the report by user 5, as addReport persists it. -/
def sampleCommentReported : Comment :=
  { sampleComment with
    reports := [{ reportedBy := 5, feedback := "Spam or promotional content",
                  status := ReportStatus.pending }],
    isReported := true }

/-- Concrete run of the C3 theorem: user 5 reports the sample comment,
then tries to report it again with different feedback. -/
theorem addReport_contract_witness :
    Comment.addReport sampleComment 5 "Spam or promotional content"
        = Except.ok sampleCommentReported ∧
    (sampleCommentReported.reports = sampleComment.reports ++
        [{ reportedBy := 5, feedback := "Spam or promotional content",
           status := ReportStatus.pending }] ∧
      sampleCommentReported.isReported = true ∧
      sampleCommentReported.addReport 5 "Harassment or bullying"
        = Except.error "You have already reported this comment") :=
  ⟨rfl,
   addReport_contract sampleComment sampleCommentReported 5
     "Spam or promotional content" "Harassment or bullying" rfl⟩

/-- The derived-flag invariant: isReported is true exactly when the
report list is non-empty. -/
def reportedFlagOk (c : Comment) : Prop :=
  c.isReported = true ↔ c.reports ≠ []

instance (c : Comment) : Decidable (reportedFlagOk c) :=
  inferInstanceAs (Decidable (_ ↔ _))

/-- One public operation on a stored comment.  addReport and
updateReportStatus leave the document untouched when they fail. -/
inductive CommentOp where
  | addReport (userId : Nat) (feedback : String)
  | updateReportStatus (reportId : Nat) (status : ReportStatus)
  | moderate (status : ModerationStatus) (moderatorId : Nat)
  | softDelete
  | resolvePending (status : ReportStatus)
  | bulkAction (action : AdminAction)

/-- Run one comment operation. -/
def applyCommentOp (c : Comment) (op : CommentOp) : Comment :=
  match op with
  | CommentOp.addReport u fb =>
      match c.addReport u fb with
      | Except.ok c₂ => c₂
      | Except.error _ => c
  | CommentOp.updateReportStatus i st =>
      match c.updateReportStatus i st with
      | Except.ok c₂ => c₂
      | Except.error _ => c
  | CommentOp.moderate st m => c.moderate st m
  | CommentOp.softDelete => deleteCommentSoft c
  | CommentOp.resolvePending st => resolveAllPending c st
  | CommentOp.bulkAction a => bulkActionUpdate a c

/-- Run a sequence of comment operations, left to right. -/
def applyCommentOps (c : Comment) (ops : List CommentOp) : Comment :=
  ops.foldl applyCommentOp c

lemma commentPreSave_reportedFlagOk (c : Comment) : reportedFlagOk (commentPreSave c) := by
  simp [commentPreSave, reportedFlagOk, List.length_pos]

lemma bulkActionUpdate_reportedFlagOk (a : AdminAction) (c : Comment)
    (h : reportedFlagOk c) : reportedFlagOk (bulkActionUpdate a c) := by
  simpa [bulkActionUpdate, reportedFlagOk] using h

lemma applyCommentOp_reportedFlagOk (c : Comment) (op : CommentOp)
    (h : reportedFlagOk c) : reportedFlagOk (applyCommentOp c op) := by
  cases op with
  | addReport u fb =>
      simp only [applyCommentOp, Comment.addReport]
      cases c.reports.find? (fun report => report.reportedBy == u) with
      | some r => exact h
      | none => exact commentPreSave_reportedFlagOk _
  | updateReportStatus i st =>
      simp only [applyCommentOp, Comment.updateReportStatus]
      by_cases hi : i < c.reports.length
      · rw [dif_pos hi]
        exact commentPreSave_reportedFlagOk _
      · rw [dif_neg hi]
        exact h
  | moderate st m => exact commentPreSave_reportedFlagOk _
  | softDelete => exact commentPreSave_reportedFlagOk _
  | resolvePending st => exact commentPreSave_reportedFlagOk _
  | bulkAction a => exact bulkActionUpdate_reportedFlagOk a c h

/-- C9: every comment reachable from creation through the public
operations (reporting, report-status updates, single and bulk
moderation, soft deletion) has isReported true exactly when its report
list is non-empty. -/
theorem isReported_iff_reports_nonempty (post author : Nat) (content : String)
    (ops : List CommentOp) :
    reportedFlagOk (applyCommentOps (createComment post author content) ops) := by
  have hstep : ∀ (c : Comment) (ops : List CommentOp), reportedFlagOk c →
      reportedFlagOk (applyCommentOps c ops) := by
    intro c ops hc
    induction ops generalizing c with
    | nil => exact hc
    | cons op ops ih => exact ih _ (applyCommentOp_reportedFlagOk c op hc)
  exact hstep _ ops (commentPreSave_reportedFlagOk _)

/-- Membership tiers (`bronze` | `gold` in the schema; the badge enum
uses the same two values). -/
inductive MembershipTier where
  | bronze
  | gold
deriving DecidableEq, Repr

/-- One badge of the badge history of a user. -/
structure Badge where
  type : MembershipTier
  earnedAt : Nat
deriving DecidableEq, Repr

/-- The User document, restricted to the fields the membership logic
touches.  Times are epoch milliseconds; a missing membershipExpiry is
none. -/
structure User where
  membership : MembershipTier
  membershipExpiry : Option Nat
  badges : List Badge
deriving DecidableEq, Repr

/-- Embedding of `userSchema.methods.hasMembership`: the stored tier is
gold and the expiry is unset or still in the future at the current
time. -/
def User.hasMembership (u : User) (now : Nat) : Bool :=
  u.membership == MembershipTier.gold &&
    (match u.membershipExpiry with
     | none => true
     | some expiry => decide (expiry > now))

/-- The canCreatePost predicate of the canPost controller: effective
gold membership, or fewer than 5 active posts.  The controller only
reads the user and the count; it writes nothing. -/
def canPost (u : User) (now : Nat) (existingActivePostCount : Nat) : Bool :=
  u.hasMembership now || decide (existingActivePostCount < 5)

/-- Embedding of `userSchema.methods.upgradeToGold`: set the tier to
gold, set the expiry to one year (365 days in milliseconds) after the
call time, and push a gold badge only when no gold badge exists yet. -/
def User.upgradeToGold (u : User) (now : Nat) : User :=
  let u := { u with membership := MembershipTier.gold,
                    membershipExpiry := some (now + 365 * 24 * 60 * 60 * 1000) }
  let hasGoldBadge := u.badges.any (fun badge => badge.type == MembershipTier.gold)
  if hasGoldBadge then u
  else { u with badges := u.badges ++ [{ type := MembershipTier.gold, earnedAt := now }] }

/-- Number of gold badges in a badge history. -/
def goldBadgeCount (badges : List Badge) : Nat :=
  (badges.filter (fun badge => badge.type == MembershipTier.gold)).length

/-- Repeated upgradeToGold calls at the given call times, left to
right. -/
def applyUpgrades (u : User) (times : List Nat) : User :=
  times.foldl User.upgradeToGold u

/-- The conflict failure of the upgradeMembership controller: a 400 when
the stored tier is already gold. -/
inductive UpgradeError where
  | alreadyGold
deriving DecidableEq, Repr

/-- Embedding of the upgradeMembership controller: reject when the
stored tier is gold (the check reads the stored tier only, never the
expiry), otherwise run the upgradeToGold method and save. -/
def upgradeMembership (u : User) (now : Nat) : Except UpgradeError User :=
  if u.membership == MembershipTier.gold then
    Except.error UpgradeError.alreadyGold
  else
    Except.ok (u.upgradeToGold now)

/-- C5: canPost is true exactly when the user is an effective gold
member (stored tier gold, and expiry unset or after the current time)
or the active-post count is below 5; a bronze member gets exactly the
count test, and an unexpired gold member is allowed regardless of the
count.  The predicate reads its two inputs and writes nothing. -/
theorem canPost_spec (u : User) (now n : Nat) :
    (canPost u now n = true ↔
      ((u.membership = MembershipTier.gold ∧
          (u.membershipExpiry = none ∨
            ∃ e, u.membershipExpiry = some e ∧ now < e)) ∨ n < 5)) ∧
    canPost { u with membership := MembershipTier.bronze } now n = decide (n < 5) ∧
    canPost { u with membership := MembershipTier.gold, membershipExpiry := none } now n
      = true := by
  refine ⟨?_, ?_, ?_⟩
  · cases hm : u.membership <;> cases he : u.membershipExpiry <;>
      simp [canPost, User.hasMembership, hm, he]
  · simp [canPost, User.hasMembership]
  · simp [canPost, User.hasMembership]

lemma upgradeToGold_goldBadgeCount (u : User) (now : Nat) :
    goldBadgeCount (u.upgradeToGold now).badges
      = (if goldBadgeCount u.badges = 0 then 1 else goldBadgeCount u.badges) := by
  cases hb : u.badges.any (fun badge => badge.type == MembershipTier.gold) with
  | false =>
      have hnil : u.badges.filter (fun badge => badge.type == MembershipTier.gold) = [] := by
        rw [List.filter_eq_nil_iff]
        intro a ha hpa
        exact List.any_eq_false.mp hb a ha hpa
      simp [User.upgradeToGold, hb, goldBadgeCount, List.filter_append, hnil]
  | true =>
      obtain ⟨x, hx, hpx⟩ := List.any_eq_true.mp hb
      have hne : (u.badges.filter (fun badge => badge.type == MembershipTier.gold)).length
          ≠ 0 := by
        intro h0
        rw [List.length_eq_zero] at h0
        have hmem : x ∈ u.badges.filter (fun badge => badge.type == MembershipTier.gold) := by
          rw [List.mem_filter]
          exact ⟨hx, hpx⟩
        rw [h0] at hmem
        exact absurd hmem (List.not_mem_nil x)
      simp [User.upgradeToGold, hb, goldBadgeCount, hne]

lemma upgradeToGold_membership (u : User) (now : Nat) :
    (u.upgradeToGold now).membership = MembershipTier.gold := by
  cases hb : u.badges.any (fun badge => badge.type == MembershipTier.gold) <;>
    simp [User.upgradeToGold, hb]

lemma upgradeToGold_expiry (u : User) (now : Nat) :
    (u.upgradeToGold now).membershipExpiry = some (now + 365 * 24 * 60 * 60 * 1000) := by
  cases hb : u.badges.any (fun badge => badge.type == MembershipTier.gold) <;>
    simp [User.upgradeToGold, hb]

/-- C6: upgradeToGold always sets the tier to gold and the expiry to
exactly 365 days after the call time; it adds a gold badge exactly when
none is present; and over any sequence of calls the badge list never
accumulates beyond one gold badge (beyond those already there). -/
theorem upgradeToGold_spec (u : User) (now : Nat) (times : List Nat) :
    (u.upgradeToGold now).membership = MembershipTier.gold ∧
    (u.upgradeToGold now).membershipExpiry = some (now + 365 * 24 * 60 * 60 * 1000) ∧
    goldBadgeCount (u.upgradeToGold now).badges
      = (if goldBadgeCount u.badges = 0 then 1 else goldBadgeCount u.badges) ∧
    goldBadgeCount (applyUpgrades u times).badges ≤ max (goldBadgeCount u.badges) 1 := by
  refine ⟨upgradeToGold_membership u now, upgradeToGold_expiry u now,
    upgradeToGold_goldBadgeCount u now, ?_⟩
  induction times generalizing u with
  | nil => exact le_max_left _ _
  | cons t ts ih =>
      have hstep : applyUpgrades u (t :: ts) = applyUpgrades (u.upgradeToGold t) ts := rfl
      rw [hstep]
      refine le_trans (ih (u.upgradeToGold t)) ?_
      rw [upgradeToGold_goldBadgeCount]
      by_cases h0 : goldBadgeCount u.badges = 0 <;> simp [h0]

/-- C10: the membership-upgrade endpoint decides on the stored tier
alone.  A user whose stored tier is gold is rejected with the
already-gold conflict for every expiry value, including one already in
the past, where effective membership has lapsed (second conjunct); as an
error return, the rejection changes no user state.  Only a user whose
stored tier is not gold is upgraded. -/
theorem upgradeMembership_stored_tier (u : User) (now e : Nat) :
    upgradeMembership
        { u with membership := MembershipTier.gold, membershipExpiry := some e } now
      = Except.error UpgradeError.alreadyGold ∧
    User.hasMembership
        { u with membership := MembershipTier.gold, membershipExpiry := some e } now
      = decide (now < e) ∧
    upgradeMembership { u with membership := MembershipTier.bronze } now
      = Except.ok (User.upgradeToGold { u with membership := MembershipTier.bronze } now) := by
  refine ⟨?_, ?_, ?_⟩ <;> simp [upgradeMembership, User.hasMembership]

end Forum
